import Mathlib

/-
  Verification of the text-buffer and scrollable-viewport subsystem of
  the atomix line-list viewer (src/buffer.c), shallowly embedded in Lean.

  Machine strings are modelled as `List Char`; C `int` values are modelled
  as `Int` (the program never exercises 32-bit wrap-around on these
  quantities, and signed overflow is undefined behaviour in C anyway).
  The ncurses surface is modelled by recording, for each paint, the exact
  characters the code would write (row by row), and the scroll loop is
  modelled as a fold over the list of key codes delivered by `wgetch`.
-/

/-- A single text line of the display buffer (struct Line_t): the character
data and the stored length field.  `add_display` always stores
`len = chars.length`. -/
structure Line_t where
  chars : List Char
  len : Int
deriving DecidableEq, Repr

/-- The display buffer (struct Display_t): a name used for empty-state
messages, the line count `nlines`, the running maximum-length tracker
`maxlen`, and the line array. -/
structure Display_t where
  name : String
  nlines : Int
  maxlen : Int
  lines : List Line_t
deriving DecidableEq, Repr

/-- The process-wide scroll-position state (fields `current_line` and
`current_col` of the global `AtomixConfiguration`). -/
structure AtomixConfig_t where
  current_line : Int
  current_col : Int
deriving DecidableEq, Repr

/-- Window geometry (struct Window_t): number of rows and columns of the
ncurses window the buffer is shown in.  The WINDOW handle itself carries
no buffer-logic state and is omitted. -/
structure Window_t where
  nrows : Int
  ncols : Int
deriving DecidableEq, Repr

/-- An empty display buffer: `nlines = 0`, `maxlen = 0`, no lines
(the initialised state of the DISPLAY global). -/
def emptyDisplay (name : String) : Display_t :=
  { name := name, nlines := 0, maxlen := 0, lines := [] }

/-- clean_up_display (buffer.c lines 31-42): free the characters of every line
and the line array, then reset `nlines` and `maxlen` to 0 and the line
pointer to NULL.  Freeing has no observable effect on the struct, so the
embedding is the field reset; the C loop over `nlines` lines and the
`free (NULL)` on an already-empty store are both well defined no-ops. -/
def clean_up_display (buffer : Display_t) : Display_t :=
  { buffer with nlines := 0, maxlen := 0, lines := [] }

/-- add_display (buffer.c lines 68-106): append one formatted line to the
buffer.  The embedding takes the already-formatted character data `s`
(the result of the vsnprintf measure / vsprintf write pair); the length
stored is the formatted length, and `maxlen` is updated to `len + 1`
whenever the new length strictly exceeds the current `maxlen`
(buffer.c lines 99-100). -/
def add_display (buffer : Display_t) (s : List Char) : Display_t :=
  { buffer with
    nlines := buffer.nlines + 1
    lines := buffer.lines ++ [{ chars := s, len := (s.length : Int) }]
    maxlen := if buffer.maxlen < (s.length : Int)
              then (s.length : Int) + 1
              else buffer.maxlen }

/-- add_sep_display (buffer.c lines 118-129): build a line of `len` dashes
and append it through the same append path as any other line (the
`display_add` wrapper it calls is a variadic front end to the append
path; it is not part of src/, and per the spec the separator "appends it
via the same path as append_formatted"). -/
def add_sep_display (buffer : Display_t) (len : Nat) : Display_t :=
  add_display buffer (List.replicate len '-')

/-- Maximum formatted length over a list of appended lines, 0 for the
empty list. -/
def listMaxLen (ls : List (List Char)) : Int :=
  ls.foldl (fun acc s => max acc (s.length : Int)) 0

theorem maxlen_step_bounds (m l M : Int) (h1 : M ≤ m) (h2 : m ≤ M + 1) :
    max M l ≤ (if m < l then l + 1 else m) ∧
    (if m < l then l + 1 else m) ≤ max M l + 1 := by
  rcases le_or_lt l m with h | h
  · rw [if_neg (not_lt.mpr h)]
    constructor
    · exact max_le h1 h
    · exact le_trans h2 (by omega)
  · rw [if_pos h]
    have hMl : M ≤ l := le_trans h1 (le_of_lt h)
    rw [max_eq_right hMl]
    omega

theorem foldl_add_display_maxlen_bounds (ls : List (List Char)) :
    ∀ (d : Display_t) (M : Int), M ≤ d.maxlen → d.maxlen ≤ M + 1 →
    ls.foldl (fun acc s => max acc (s.length : Int)) M ≤
      (ls.foldl add_display d).maxlen ∧
    (ls.foldl add_display d).maxlen ≤
      ls.foldl (fun acc s => max acc (s.length : Int)) M + 1 := by
  induction ls with
  | nil => intro d M h1 h2; exact ⟨h1, h2⟩
  | cons s rest ih =>
    intro d M h1 h2
    have hstep := maxlen_step_bounds d.maxlen (s.length : Int) M h1 h2
    simpa [List.foldl_cons, add_display] using
      ih (add_display d s) (max M (s.length : Int)) hstep.1 hstep.2

theorem foldl_add_display_lines (ls : List (List Char)) :
    ∀ (d : Display_t),
    (ls.foldl add_display d).nlines = d.nlines + (ls.length : Int) ∧
    (ls.foldl add_display d).lines =
      d.lines ++ ls.map (fun s => { chars := s, len := (s.length : Int) }) := by
  induction ls with
  | nil => intro d; simp
  | cons s rest ih =>
    intro d
    have h := ih (add_display d s)
    constructor
    · rw [List.foldl_cons, h.1]; simp [add_display]; omega
    · rw [List.foldl_cons, h.2]; simp [add_display]

/-- C9: for every sequence of append operations on an initially empty
store, `nlines` equals the number of append calls, and the stored lines
are exactly the appended lines in insertion order. -/
theorem c9_append_count_order (name : String) (ls : List (List Char)) :
    (ls.foldl add_display (emptyDisplay name)).nlines = (ls.length : Int) ∧
    (ls.foldl add_display (emptyDisplay name)).lines.map Line_t.chars = ls := by
  have h := foldl_add_display_lines ls (emptyDisplay name)
  refine ⟨by rw [h.1]; simp [emptyDisplay], ?_⟩
  rw [h.2]
  simp only [emptyDisplay, List.nil_append, List.map_map]
  exact List.map_id ls

/-- C1 counterexample: appending the single five-character line "hello"
to an empty store leaves `maxlen = 6`, not the maximum appended length 5
(`add_display` stores `len + 1` when a new maximum is set). -/
theorem c1_maxlen_not_exact_cex :
    ¬ (([['h','e','l','l','o']].foldl add_display (emptyDisplay "b")).maxlen
        = listMaxLen [['h','e','l','l','o']]) := by
  decide

/-- C1 (amended): for every sequence of append operations on an initially
empty store, `maxlen` lies between the maximum appended line length and
that maximum plus one. -/
theorem c1_maxlen_bounds (name : String) (ls : List (List Char)) :
    listMaxLen ls ≤ (ls.foldl add_display (emptyDisplay name)).maxlen ∧
    (ls.foldl add_display (emptyDisplay name)).maxlen ≤ listMaxLen ls + 1 := by
  have h := foldl_add_display_maxlen_bounds ls (emptyDisplay name) 0
    (by simp [emptyDisplay]) (by simp [emptyDisplay])
  exact ⟨h.1, h.2⟩

/-- Decimal digit character for a digit value below 10 (the characters
the printf %d conversion emits). -/
def digitChar (d : Nat) : Char :=
  match d with
  | 0 => '0'
  | 1 => '1'
  | 2 => '2'
  | 3 => '3'
  | 4 => '4'
  | 5 => '5'
  | 6 => '6'
  | 7 => '7'
  | 8 => '8'
  | 9 => '9'
  | _ => '?'

/-- Decimal digit string of a natural number, most significant digit
first, as printed by the printf %d conversion. -/
def natDigits (n : Nat) : List Char :=
  if _h : n < 10 then [digitChar n]
  else natDigits (n / 10) ++ [digitChar (n % 10)]
decreasing_by exact Nat.div_lt_self (by omega) (by omega)

/-- Character rendering of a C int under the printf %d conversion: a minus
sign followed by the digits for negative values, the digits alone
otherwise. -/
def intChars (n : Int) : List Char :=
  if n < 0 then '-' :: natDigits n.natAbs else natDigits n.toNat

/-- The %-4d printf field: the rendered number, left justified, padded on
the right with spaces to a minimum width of four characters. -/
def padLeft4 (cs : List Char) : List Char :=
  cs ++ List.replicate (4 - cs.length) ' '

/-- The progress message produced by sprintf on the last page
(buffer.c line 157): "| END  / %-4d |" applied to `total_lines`. -/
def progress_end_message (total_lines : Int) : List Char :=
  ['|', ' ', 'E', 'N', 'D', ' ', ' ', '/', ' ']
    ++ padLeft4 (intChars total_lines) ++ [' ', '|']

/-- The ordinary progress message (buffer.c line 161):
"| %-4d / %-4d |" applied to `current_line` and `total_lines`. -/
def progress_line_message (current_line total_lines : Int) : List Char :=
  ['|', ' '] ++ padLeft4 (intChars current_line)
    ++ [' ', '/', ' '] ++ padLeft4 (intChars total_lines) ++ [' ', '|']

/-- update_current_line_progress (buffer.c lines 149-166): the message
written at the bottom of the window showing the current top line against
the total; the END form is chosen when the window cannot scroll any
further down. -/
def update_current_line_progress (win : Window_t) (current_line total_lines : Int) :
    List Char :=
  if current_line + win.nrows - 2 > total_lines then
    progress_end_message total_lines
  else
    progress_line_message current_line total_lines

theorem digitChar_ne_E (d : Nat) : digitChar d ≠ 'E' := by
  unfold digitChar
  split <;> decide

theorem natDigits_head (n : Nat) :
    ∃ d tl, d < 10 ∧ natDigits n = digitChar d :: tl := by
  induction n using Nat.strong_induction_on with
  | _ n ih =>
    unfold natDigits
    split
    · exact ⟨n, [], by omega, rfl⟩
    · obtain ⟨d, tl, hd, htl⟩ := ih (n / 10) (Nat.div_lt_self (by omega) (by omega))
      exact ⟨d, tl ++ [digitChar (n % 10)], hd, by rw [htl]; rfl⟩

theorem intChars_head (n : Int) :
    ∃ c tl, intChars n = c :: tl ∧ c ≠ 'E' := by
  unfold intChars
  split
  · exact ⟨'-', natDigits n.natAbs, rfl, by decide⟩
  · obtain ⟨d, tl, _, htl⟩ := natDigits_head n.toNat
    exact ⟨digitChar d, tl, htl, digitChar_ne_E d⟩

theorem progress_messages_distinct (current_line total_lines : Int) :
    progress_line_message current_line total_lines ≠
      progress_end_message total_lines := by
  obtain ⟨c, tl, hc, hne⟩ := intChars_head current_line
  intro h
  apply hne
  have : ('|' :: ' ' :: c :: (tl ++ List.replicate (4 - (c :: tl).length) ' '
        ++ ([' ', '/', ' '] ++ padLeft4 (intChars total_lines) ++ [' ', '|'])))
      = progress_end_message total_lines := by
    rw [← h]
    simp [progress_line_message, padLeft4, hc]
  have h3 := congrArg (fun l => l.get? 2) this
  simp [progress_end_message] at h3
  exact h3

/-- C7: the progress indicator equals the END-form message exactly when
`current + visible_rows - 2 > total` (the last page); otherwise it is the
ordinary "current / total" numeral message. -/
theorem c7_progress_end_iff (win : Window_t) (current_line total_lines : Int) :
    (update_current_line_progress win current_line total_lines
        = if current_line + win.nrows - 2 > total_lines
          then progress_end_message total_lines
          else progress_line_message current_line total_lines) ∧
    (update_current_line_progress win current_line total_lines
        = progress_end_message total_lines
      ↔ current_line + win.nrows - 2 > total_lines) := by
  refine ⟨rfl, ?_⟩
  constructor
  · intro h
    by_contra hc
    rw [update_current_line_progress, if_neg hc] at h
    exact progress_messages_distinct current_line total_lines h
  · intro h
    rw [update_current_line_progress, if_pos h]

/-- Symbolic key codes delivered by wgetch, as handled by scroll_display
(buffer.c lines 231-283): the quit keys 'q' / F1, the handled navigation
and resize codes, and `other` for any unrecognised key. -/
inductive ScrollKey where
  | quit | resize | up | down | right | left | npage | ppage | home | kend | other
deriving DecidableEq, Repr

/-- Whether a key sets `screen_position_moved` in the switch of
scroll_display (every handled case except the default). -/
def is_movement : ScrollKey → Bool
  | .resize => true
  | .up => true
  | .down => true
  | .right => true
  | .left => true
  | .npage => true
  | .ppage => true
  | .home => true
  | .kend => true
  | _ => false

/-- The new (pre-clamp) value of `bline_start` for a handled key
(buffer.c lines 245-280). -/
def move_bline (win : Window_t) (nlines bline : Int) : ScrollKey → Int
  | .up => bline - 1
  | .down => bline + 1
  | .npage => bline + (win.nrows - 2)
  | .ppage => bline - (win.nrows - 2)
  | .home => 0
  | .kend => nlines - win.nrows + 2
  | _ => bline

/-- The new (pre-clamp) value of `bcol_start` for a handled key
(buffer.c lines 257-264). -/
def move_bcol (bcol : Int) : ScrollKey → Int
  | .right => bcol + 1
  | .left => bcol - 1
  | _ => bcol

/-- Vertical clamp applied before each repaint (buffer.c lines 289-292):
raise `bline_start` to `header_rows`, then if the window would run past
the end of the buffer, set it to `nlines - nrows + 2`. -/
def clamp_vertical (header_rows nlines nrows bline : Int) : Int :=
  if (if bline < header_rows then header_rows else bline) + nrows - 2 > nlines
  then nlines - nrows + 2
  else (if bline < header_rows then header_rows else bline)

/-- Horizontal clamp applied before each repaint (buffer.c lines
294-297): raise `bcol_start` to 0, then if the window would run past
`maxlen`, reset it to the process-wide `current_col`. -/
def clamp_horizontal (ncols maxlen current_col bcol : Int) : Int :=
  if (if bcol < 0 then 0 else bcol) + ncols - 2 > maxlen
  then current_col
  else (if bcol < 0 then 0 else bcol)

/-- The characters one row-paint loop writes (buffer.c lines 310-313 and
323-326): characters `j = bcol, bcol+1, ...` of the line while `j <
line.len` and the screen column (starting at 1) stays below `ncols - 1`,
so `min (len - bcol) (ncols - 2)` characters.  Out-of-range reads (which
would be undefined behaviour in the C) are modelled as a space. -/
def paintRow (line : Line_t) (bcol ncols : Int) : List Char :=
  (List.range (min (line.len - bcol) (ncols - 2)).toNat).map
    (fun k => line.chars.getD (bcol + k).toNat ' ')

/-- The frozen-header rows painted on each repaint when the persistent
header is enabled (buffer.c lines 306-315): lines `0 ..` while `i <
header_rows` and the screen row (starting at 1) stays below `nrows - 1`. -/
def paintHeader (buffer : Display_t) (win : Window_t) (header_rows bcol : Int) :
    List (List Char) :=
  (List.range (min header_rows (win.nrows - 2)).toNat).map
    (fun i => paintRow (buffer.lines.getD i { chars := [], len := 0 }) bcol win.ncols)

/-- The buffer rows painted on each repaint (buffer.c lines 321-327):
lines `bline ..` while `i < nlines` and the screen row (starting at
`srow_origin`) stays below `nrows - 1`. -/
def paintBody (buffer : Display_t) (win : Window_t) (srow_origin bline bcol : Int) :
    List (List Char) :=
  (List.range (min (buffer.nlines - bline) (win.nrows - 1 - srow_origin)).toNat).map
    (fun k => paintRow (buffer.lines.getD (bline + k).toNat { chars := [], len := 0 })
                bcol win.ncols)

/-- Everything one repaint of the scroll loop writes: the clamped
offsets, the frozen header (empty when disabled), the body rows, and the
progress message. -/
structure Repaint where
  bline : Int
  bcol : Int
  header : List (List Char)
  body : List (List Char)
  progress : List Char
deriving DecidableEq, Repr

/-- The state carried across iterations of the scroll loop: the two
offsets, the process-wide scroll-position state, and the repaints
performed so far (most recent last). -/
structure ScrollSession where
  bline_start : Int
  bcol_start : Int
  cfg : AtomixConfig_t
  repaints : List Repaint
deriving DecidableEq, Repr

/-- The repaint record produced by one pass of the redraw block
(buffer.c lines 285-331) at already-clamped offsets. -/
def mk_repaint (buffer : Display_t) (win : Window_t) (persistent_header : Bool)
    (header_rows bline bcol : Int) : Repaint :=
  { bline := bline
    bcol := bcol
    header := if persistent_header then paintHeader buffer win header_rows bcol else []
    body := paintBody buffer win (1 + (if persistent_header then header_rows else 0)) bline bcol
    progress := update_current_line_progress win (bline + 1 - header_rows)
                  (buffer.nlines - header_rows) }

/-- One iteration of the scroll loop body for a non-quit key (buffer.c
lines 241-334): when the buffer is tall enough to scroll and the key is
a handled one, move the offsets, clamp them, persist them into the
process-wide state, and repaint; otherwise nothing happens. -/
def scroll_step (buffer : Display_t) (win : Window_t) (persistent_header : Bool)
    (header_rows : Int) (s : ScrollSession) (ch : ScrollKey) : ScrollSession :=
  if buffer.nlines > win.nrows - 2 ∧ is_movement ch then
    let bline := clamp_vertical header_rows buffer.nlines win.nrows
                   (move_bline win buffer.nlines s.bline_start ch)
    let bcol := clamp_horizontal win.ncols buffer.maxlen s.cfg.current_col
                  (move_bcol s.bcol_start ch)
    { bline_start := bline
      bcol_start := bcol
      cfg := { current_line := bline, current_col := bcol }
      repaints := s.repaints
        ++ [mk_repaint buffer win persistent_header header_rows bline bcol] }
  else s

/-- The scroll loop (buffer.c lines 231-335) over a list of delivered
keys: stop at the first quit key, otherwise run `scroll_step`.  The
second component counts the keys the loop consumed. -/
def scroll_run (buffer : Display_t) (win : Window_t) (persistent_header : Bool)
    (header_rows : Int) : ScrollSession → List ScrollKey → ScrollSession × Nat
  | s, [] => (s, 0)
  | s, ch :: rest =>
    if ch = ScrollKey.quit then (s, 1)
    else
      let p := scroll_run buffer win persistent_header header_rows
                 (scroll_step buffer win persistent_header header_rows s ch) rest
      (p.1, p.2 + 1)

/-- scroll_display (buffer.c lines 194-336): `header_rows` is forced to
0 when there is no persistent header (lines 214-215); `bline_start`
starts at 0 and is advanced past the header when there is one (lines
205, 223-227), `bcol_start` starts at 0; then the loop runs over the
delivered keys.  `cfg` is the process-wide scroll-position state at
entry. -/
def scroll_display (buffer : Display_t) (win : Window_t) (persistent_header : Bool)
    (header_rows : Int) (cfg : AtomixConfig_t) (input : List ScrollKey) :
    ScrollSession × Nat :=
  scroll_run buffer win persistent_header
    (if persistent_header then header_rows else 0)
    { bline_start := if persistent_header then header_rows else 0
      bcol_start := 0
      cfg := cfg
      repaints := [] }
    input

/-- What display_buffer paints: either the bold empty-state notice, or
the visible content rows together with the initial progress message. -/
inductive RenderResult where
  | notice (msg : String)
  | content (rows : List (List Char)) (progress : List Char)
deriving DecidableEq, Repr

/-- The content rows of the initial paint (buffer.c lines 380-387):
lines `0 ..` while `i < nlines` and `i < nrows - 2`, columns `0 ..`
while `j < len` and `j < ncols - 2`. -/
def displayRows (buffer : Display_t) (win : Window_t) : List (List Char) :=
  (List.range (min buffer.nlines (win.nrows - 2)).toNat).map
    (fun i => paintRow (buffer.lines.getD i { chars := [], len := 0 }) 0 win.ncols)

/-- display_buffer (buffer.c lines 364-395): on an empty buffer render
the bold "No text in %s buffer to show" notice and return; otherwise
paint the visible rows, write the initial progress message, and, when
scrolling is enabled, hand over to scroll_display. -/
def display_buffer (buffer : Display_t) (win : Window_t) (scroll : Bool)
    (persistent_header : Bool) (header_rows : Int) (cfg : AtomixConfig_t)
    (input : List ScrollKey) : RenderResult × Option (ScrollSession × Nat) :=
  if buffer.nlines = 0 ∨ buffer.lines = [] then
    (RenderResult.notice ("No text in " ++ buffer.name ++ " buffer to show"), none)
  else
    (RenderResult.content (displayRows buffer win)
       (update_current_line_progress win 1 buffer.nlines),
     if scroll then some (scroll_display buffer win persistent_header header_rows cfg input)
     else none)

/-- C6: teardown is idempotent-safe: after one `clean_up_display` the
store is empty (`nlines = 0`, `maxlen = 0`, no lines), and a second call
is a no-op that leaves the very same empty state. -/
theorem c6_teardown_idempotent (d : Display_t) :
    clean_up_display (clean_up_display d) = clean_up_display d ∧
    (clean_up_display d).nlines = 0 ∧
    (clean_up_display d).maxlen = 0 ∧
    (clean_up_display d).lines = [] :=
  ⟨rfl, rfl, rfl, rfl⟩

/-- Concrete window: 20 rows by 10 columns. -/
def winA : Window_t := { nrows := 20, ncols := 10 }

/-- Concrete process-wide scroll state: origin. -/
def cfg0 : AtomixConfig_t := { current_line := 0, current_col := 0 }

/-- A concrete one-character line. -/
def lineA : Line_t := { chars := ['a'], len := 1 }

/-- A concrete 20-line buffer: tall enough to scroll in `winA`. -/
def bufferA : Display_t :=
  { name := "bound-bound", nlines := 20, maxlen := 2, lines := List.replicate 20 lineA }

/-- A concrete 19-line buffer: tall enough to scroll in `winA`, but too
short for a three-row frozen header. -/
def bufferB : Display_t :=
  { name := "elements", nlines := 19, maxlen := 2, lines := List.replicate 19 lineA }

/-- A concrete 3-line buffer: too short to scroll in `winA`. -/
def bufferS : Display_t :=
  { name := "ions", nlines := 3, maxlen := 2, lines := List.replicate 3 lineA }

theorem clamp_vertical_bounds (header_rows nlines nrows x : Int)
    (h : header_rows ≤ nlines - nrows + 2) :
    header_rows ≤ clamp_vertical header_rows nlines nrows x ∧
    clamp_vertical header_rows nlines nrows x ≤ nlines - nrows + 2 := by
  unfold clamp_vertical
  split_ifs <;> omega

theorem scroll_step_bline_inv (buffer : Display_t) (win : Window_t)
    (persistent_header : Bool) (header_rows : Int) (P : Int → Prop)
    (hP : ∀ x, P (clamp_vertical header_rows buffer.nlines win.nrows x))
    (s : ScrollSession) (ch : ScrollKey)
    (hs : ∀ r ∈ s.repaints, P r.bline) :
    ∀ r ∈ (scroll_step buffer win persistent_header header_rows s ch).repaints,
      P r.bline := by
  unfold scroll_step
  split
  · intro r hm
    simp only [List.mem_append, List.mem_singleton] at hm
    rcases hm with hm | hm
    · exact hs r hm
    · rw [hm]
      exact hP _
  · exact hs

theorem scroll_run_bline_inv (buffer : Display_t) (win : Window_t)
    (persistent_header : Bool) (header_rows : Int) (P : Int → Prop)
    (hP : ∀ x, P (clamp_vertical header_rows buffer.nlines win.nrows x))
    (input : List ScrollKey) :
    ∀ s : ScrollSession, (∀ r ∈ s.repaints, P r.bline) →
    ∀ r ∈ (scroll_run buffer win persistent_header header_rows s input).1.repaints,
      P r.bline := by
  induction input with
  | nil => intro s hs; exact hs
  | cons ch rest ih =>
    intro s hs
    unfold scroll_run
    split
    · exact hs
    · simp only []
      exact ih (scroll_step buffer win persistent_header header_rows s ch)
        (scroll_step_bline_inv buffer win persistent_header header_rows P hP s ch hs)

/-- C2 (amended): in a scroll session on a non-empty store with
scrolling enabled, provided the clamp interval is non-empty
(`frozen_header_row_count <= line_count - visible_rows + 2`), the
vertical offset of every repaint lies in
`[frozen_header_row_count, line_count - visible_rows + 2]`. -/
theorem c2_vertical_clamp_invariant (buffer : Display_t) (win : Window_t)
    (persistent_header : Bool) (header_rows : Int) (cfg : AtomixConfig_t)
    (input : List ScrollKey)
    (_hpos : 0 < buffer.nlines)
    (_hscroll : buffer.nlines > win.nrows - 2)
    (hint : (if persistent_header then header_rows else 0) ≤
              buffer.nlines - win.nrows + 2) :
    ∀ r ∈ (scroll_display buffer win persistent_header header_rows cfg input).1.repaints,
      (if persistent_header then header_rows else 0) ≤ r.bline ∧
      r.bline ≤ buffer.nlines - win.nrows + 2 := by
  apply scroll_run_bline_inv buffer win persistent_header
    (if persistent_header then header_rows else 0)
    (fun x => (if persistent_header then header_rows else 0) ≤ x ∧
              x ≤ buffer.nlines - win.nrows + 2)
    (fun x => clamp_vertical_bounds _ buffer.nlines win.nrows x hint)
  intro r hr
  simp at hr

/-- C2 witness: a session on the 20-line buffer in the 20-row window in
which one KEY_DOWN repaints at vertical offset 1, inside [0, 2]. -/
theorem c2_vertical_clamp_invariant_witness :
    ((0:Int) ≤ ((scroll_display bufferA winA false 0 cfg0
        [ScrollKey.down, ScrollKey.quit]).1.repaints.getD 0
        { bline := 0, bcol := 0, header := [], body := [], progress := [] }).bline) ∧
    (((scroll_display bufferA winA false 0 cfg0
        [ScrollKey.down, ScrollKey.quit]).1.repaints.getD 0
        { bline := 0, bcol := 0, header := [], body := [], progress := [] }).bline
      ≤ bufferA.nlines - winA.nrows + 2) :=
  c2_vertical_clamp_invariant bufferA winA false 0 cfg0
    [ScrollKey.down, ScrollKey.quit] (by decide) (by decide) (by decide)
    ((scroll_display bufferA winA false 0 cfg0
        [ScrollKey.down, ScrollKey.quit]).1.repaints.getD 0
        { bline := 0, bcol := 0, header := [], body := [], progress := [] })
    (by
      rw [List.getD_eq_getElem _ _ (by decide)]
      exact List.getElem_mem (by decide))

/-- C2 counterexample: on the 19-line buffer in the 20-row window with a
three-row frozen header (scrolling enabled: 19 > 18), one KEY_DOWN
repaints at vertical offset 1, below `frozen_header_row_count = 3`: the
claimed interval is violated (it is empty here). -/
theorem c2_clamp_escapes_interval_cex :
    ¬ (∀ r ∈ (scroll_display bufferB winA true 3 cfg0
          [ScrollKey.down, ScrollKey.quit]).1.repaints,
        (3:Int) ≤ r.bline ∧ r.bline ≤ bufferB.nlines - winA.nrows + 2) := by
  decide

/-- C3 counterexample: with the process-wide scroll state remembering
line 5 and column 7, a fresh scroll session still starts at offsets
(0, 0) — it is not seeded from the remembered position. -/
theorem c3_not_seeded_cex :
    ¬ ((scroll_display bufferA winA false 0
          { current_line := 5, current_col := 7 } []).1.bline_start = 5 ∧
       (scroll_display bufferA winA false 0
          { current_line := 5, current_col := 7 } []).1.bcol_start = 7) := by
  decide

/-- C3 (amended): every scroll session starts at fixed offsets — the
vertical offset at the frozen header row count when a persistent header
is configured and at 0 otherwise, the horizontal offset at 0 — for every
value of the process-wide scroll state. -/
theorem c3_session_starts_at_origin (buffer : Display_t) (win : Window_t)
    (persistent_header : Bool) (header_rows : Int) (cfg : AtomixConfig_t) :
    (scroll_display buffer win persistent_header header_rows cfg []).1.bline_start
      = (if persistent_header then header_rows else 0) ∧
    (scroll_display buffer win persistent_header header_rows cfg []).1.bcol_start
      = 0 :=
  ⟨rfl, rfl⟩

theorem scroll_step_no_scroll (buffer : Display_t) (win : Window_t)
    (persistent_header : Bool) (header_rows : Int)
    (h : buffer.nlines ≤ win.nrows - 2) (s : ScrollSession) (ch : ScrollKey) :
    scroll_step buffer win persistent_header header_rows s ch = s := by
  unfold scroll_step
  rw [if_neg]
  intro hc
  exact absurd hc.1 (not_lt.mpr h)

theorem scroll_run_no_scroll (buffer : Display_t) (win : Window_t)
    (persistent_header : Bool) (header_rows : Int)
    (h : buffer.nlines ≤ win.nrows - 2) (input : List ScrollKey) :
    ∀ s : ScrollSession,
      (scroll_run buffer win persistent_header header_rows s input).1 = s := by
  induction input with
  | nil => intro s; rfl
  | cons ch rest ih =>
    intro s
    unfold scroll_run
    split
    · rfl
    · simp only []
      rw [scroll_step_no_scroll buffer win persistent_header header_rows h s ch]
      exact ih s

/-- C4 (amended): when `line_count <= visible_rows - 2`, no key changes
any offset, the process-wide state is never written, and no repaint ever
happens (the initial paint stands as final) — although the controller
still consumes keys in its input loop until a quit key arrives. -/
theorem c4_scroll_disabled_no_change (buffer : Display_t) (win : Window_t)
    (persistent_header : Bool) (header_rows : Int) (cfg : AtomixConfig_t)
    (input : List ScrollKey)
    (h : buffer.nlines ≤ win.nrows - 2) :
    (scroll_display buffer win persistent_header header_rows cfg input).1 =
      { bline_start := if persistent_header then header_rows else 0
        bcol_start := 0
        cfg := cfg
        repaints := [] } :=
  scroll_run_no_scroll buffer win persistent_header
    (if persistent_header then header_rows else 0) h input _

/-- C4 witness: on the 3-line buffer in the 20-row window, a session
with one arrow key ends in exactly the initial state. -/
theorem c4_scroll_disabled_no_change_witness :
    (scroll_display bufferS winA false 0 cfg0
        [ScrollKey.up, ScrollKey.quit]).1 =
      { bline_start := 0, bcol_start := 0, cfg := cfg0, repaints := [] } :=
  c4_scroll_disabled_no_change bufferS winA false 0 cfg0
    [ScrollKey.up, ScrollKey.quit] (by decide)

/-- C4 counterexample: on the 3-line buffer in the 20-row window
(3 <= 18, scrolling disabled) the controller still enters its input
loop: it consumes two keys (an arrow key, then the quit key), not
zero. -/
theorem c4_loop_entered_cex :
    ¬ ((scroll_display bufferS winA false 0 cfg0
          [ScrollKey.up, ScrollKey.quit]).2 = 0) := by
  decide

/-- C5: painting a store with `line_count = 0` yields exactly the single
"No text in <name> buffer to show" notice naming the store, no content
rows, and no scroll session. -/
theorem c5_empty_store_notice (buffer : Display_t) (win : Window_t)
    (scroll persistent_header : Bool) (header_rows : Int)
    (cfg : AtomixConfig_t) (input : List ScrollKey)
    (h : buffer.nlines = 0) :
    display_buffer buffer win scroll persistent_header header_rows cfg input =
      (RenderResult.notice ("No text in " ++ buffer.name ++ " buffer to show"),
       none) := by
  unfold display_buffer
  rw [if_pos (Or.inl h)]

/-- C5 witness: the empty "lines" store paints as its notice. -/
theorem c5_empty_store_notice_witness :
    display_buffer (emptyDisplay "lines") winA true false 0 cfg0 [] =
      (RenderResult.notice "No text in lines buffer to show", none) :=
  c5_empty_store_notice (emptyDisplay "lines") winA true false 0 cfg0 [] rfl

/-- C8: the repaint-time horizontal clamp first raises the offset to at
least 0; then either no overscroll past `maxlen` would occur and the
result is that clamped non-negative value, or the result is reset to the
process-wide last known column `current_col` — never hard-clamped to a
computed maximum. -/
theorem c8_horizontal_clamp_behavior (ncols maxlen current_col bcol : Int) :
    (max bcol 0 + ncols - 2 ≤ maxlen ∧
     clamp_horizontal ncols maxlen current_col bcol = max bcol 0 ∧
     0 ≤ clamp_horizontal ncols maxlen current_col bcol) ∨
    (max bcol 0 + ncols - 2 > maxlen ∧
     clamp_horizontal ncols maxlen current_col bcol = current_col) := by
  have hm : (if bcol < 0 then (0:Int) else bcol) = max bcol 0 := by
    split
    · exact (max_eq_right (le_of_lt (by assumption))).symm
    · exact (max_eq_left (le_of_not_lt (by assumption))).symm
  unfold clamp_horizontal
  rw [hm]
  rcases lt_or_le maxlen (max bcol 0 + ncols - 2) with h | h
  · right
    exact ⟨h, if_pos h⟩
  · left
    refine ⟨h, if_neg (not_lt.mpr h), ?_⟩
    rw [if_neg (not_lt.mpr h)]
    exact le_max_right bcol 0

/-- C10: with the persistent-header flag false, the `header_rows`
argument is forced to 0 and has no effect: any two values produce
identical offsets, repaints, and persisted state on the same store,
window, state and input. -/
theorem c10_header_rows_no_effect (buffer : Display_t) (win : Window_t)
    (cfg : AtomixConfig_t) (input : List ScrollKey) (h1 h2 : Int) :
    scroll_display buffer win false h1 cfg input =
    scroll_display buffer win false h2 cfg input :=
  rfl
